import Mathlib

/-!
Verification of the beamline 8.3.2 data movement flow
(`orchestration/flows/bl832/move.py`).

Paths are modelled as lists of characters (Python `str`).  Fallible Python
operations (indexing an empty string or a too-short list) return
`Except PyError`.  The external collaborators (the Globus transfer client,
the SciCat ingestion service and the Prefect scheduler) are modelled from
the specification as pure inputs/outputs: a transfer reports a
`TransferOutcome`, an ingestion submission reports a success flag, and
scheduling a deferred flow is recorded as an event.  The flow body itself
is translated statement by statement from the source file.
-/

/-- Convenience: the character list of a string literal. -/
def pstr (s : String) : List Char := s.toList

/-- Kinds of errors the embedded Python code can signal.  `indexError`
models Python's built-in `IndexError`, raised by out-of-range sequence
indexing (`file_path[0]` on an empty string, `split(...)[1]` on a
one-element list).  `malformedPathError` models the spec's
`MalformedPathError` error class (section 7); the embedded source never
produces it, it exists so that statements about the spec's error taxonomy
can be expressed. -/
inductive PyError where
  | indexError
  | malformedPathError
deriving DecidableEq, Repr

deriving instance DecidableEq for Except

/-- Outcome of one transfer, modelled from the spec's `TransferOutcome`
tagged result: {Succeeded, TimedOut, Failed(reason)}. -/
inductive TransferOutcome where
  | succeeded
  | timedOut
  | failed (reason : List Char)
deriving DecidableEq, Repr

/-- Observable invocations of the external collaborators made during one
pipeline run, in order. -/
inductive Event where
  | transferSpotToData (source_path dest_path : List Char) (outcome : TransferOutcome)
  | transferDataToNersc (source_path dest_path : List Char) (outcome : TransferOutcome)
  | ingestScicat (ingest_path : List Char) (ok : Bool)
  | scheduleFlow (deployment flow_run_name relative_path : List Char) (days : Nat)
deriving DecidableEq, Repr

/-- Python list indexing `l[i]` for a nonnegative index: returns the
element, or raises `IndexError` when the list is too short. -/
def pyIndex {α : Type} : List α → Nat → Except PyError α
  | [], _ => .error .indexError
  | x :: _, 0 => .ok x
  | _ :: xs, n + 1 => pyIndex xs n

/-- Fuelled worker for Python's `str.split(sep)` with a nonempty separator:
scan left to right, cut at each leftmost non-overlapping occurrence of
`sep`.  The fuel argument only makes the recursion structural; whenever
`l.length ≤ fuel` the fuel never runs out (the `0, l` arm is unreachable)
and the result is exactly Python's split. -/
def splitF (sep : List Char) : Nat → List Char → List (List Char)
  | _, [] => [[]]
  | 0, l => [l]
  | fuel + 1, c :: rest =>
    if sep ≠ [] ∧ sep.isPrefixOf (c :: rest) then
      [] :: splitF sep fuel ((c :: rest).drop sep.length)
    else
      match splitF sep fuel rest with
      | [] => [[c]]
      | piece :: pieces => (c :: piece) :: pieces

/-- Python `s.split(sep)` for a nonempty separator string. -/
def pySplit (s sep : List Char) : List (List Char) := splitF sep s.length s

/-- Joining a list of pieces with a separator; the left inverse used to
state that `pySplit` loses no characters. -/
def joinWith (sep : List Char) : List (List Char) → List Char
  | [] => []
  | [x] => x
  | x :: y :: t => x ++ sep ++ joinWith sep (y :: t)

/-- Embeds CPython's `posixpath.join(a, b)` for two arguments: an absolute
second argument replaces the first; otherwise the two are concatenated,
inserting a separator unless `a` is empty or already ends with one. -/
def osPathJoin (a b : List Char) : List Char :=
  if b.head? = some '/' then b
  else if a = [] then b
  else if a.getLast? = some '/' then a ++ b
  else a ++ '/' :: b

/-- Embeds the guard on lines 30-31 (and 58-59, 95-96) of move.py:
`if file_path[0] == "/": file_path = file_path[1:]`.  Indexing an empty
string raises `IndexError`. -/
def stripLeadingSlash : List Char → Except PyError (List Char)
  | [] => .error .indexError
  | c :: rest => .ok (if c = '/' then rest else c :: rest)

/-- The marker substring on which the flow splits incoming paths
(move.py line 117). -/
def marker : List Char := pstr "/global"

/-- Embeds move.py line 117:
`relative_path = file_path.split("/global")[1]`. -/
def normalizePath (file_path : List Char) : Except PyError (List Char) :=
  pyIndex (pySplit file_path marker) 1

/-- Embeds the task `transfer_spot_to_data` (move.py lines 20-45): strip
one leading separator, join `file_path` onto both endpoint roots with
`os.path.join`, and hand the transfer request to the Globus collaborator,
whose reported outcome is `outcome` (modelled from the spec's Transfer
Monitor contract: the collaborator returns a `TransferOutcome`). -/
def transfer_spot_to_data (outcome : TransferOutcome)
    (spot832_root data832_root file_path : List Char) : Except PyError Event := do
  let fp ← stripLeadingSlash file_path
  .ok (.transferSpotToData (osPathJoin spot832_root fp) (osPathJoin data832_root fp) outcome)

/-- Embeds the task `transfer_data_to_nersc` (move.py lines 48-75); the
path handling is identical to `transfer_spot_to_data`. -/
def transfer_data_to_nersc (outcome : TransferOutcome)
    (data832_root nersc832_root file_path : List Char) : Except PyError Event := do
  let fp ← stripLeadingSlash file_path
  .ok (.transferDataToNersc (osPathJoin data832_root fp) (osPathJoin nersc832_root fp) outcome)

/-- Embeds the task `ingest_scicat` (move.py lines 86-104): strip one
leading separator, prepend the ingestion mount translation
`/data_mover/8.3.2`, and submit the ingest job; `ok` is the submission
result reported by the SciCat collaborator (modelled from the spec: the
response is logged, never branched on). -/
def ingest_scicat (ok : Bool) (relative_path : List Char) : Except PyError Event := do
  let rel ← stripLeadingSlash relative_path
  .ok (.ingestScicat (osPathJoin (pstr "/data_mover/8.3.2") rel) ok)

/-- Embeds Python `PurePosixPath(p).name`: the last path component, with
empty components and single-dot components discarded (used by the flow for
the human-readable deletion flow names). -/
def pathName (p : List Char) : List Char :=
  (((splitF ['/'] p.length p).filter (fun seg => !seg.isEmpty && seg != ['.'])).getLast?).getD []

/-- Endpoint root paths of the three storage tiers, read once per run from
configuration (`Config832`; the class itself lives outside this file's
source, only its three root paths matter here). -/
structure Config832 where
  spot832_root : List Char
  data832_root : List Char
  nersc832_root : List Char

/-- Behaviour of the external collaborators during one run, modelled from
the spec: the outcome each transfer reports, whether the ingestion
submission succeeds, and the two retention settings from the
`bl832-settings` JSON block. -/
structure Collaborators where
  spotToData : TransferOutcome
  dataToNersc : TransferOutcome
  ingestOk : Bool
  delete_spot832_files_after_days : Nat
  delete_data832_files_after_days : Nat

/-- Embeds the flow `process_new_832_file` (move.py lines 107-153),
statement by statement: normalize the incoming path (line 117), run the
two transfer tasks (lines 118, 121) ignoring their returned outcomes as
the source does, submit the ingestion job (line 126), and schedule the two
deferred deletion flows (lines 133-138 and 144-149) with the configured
retention windows.  The returned trace lists the collaborator invocations
in order; an `Except.error` is a Python exception escaping the flow. -/
def process_new_832_file (cfg : Config832) (env : Collaborators)
    (file_path : List Char) : Except PyError (List Event) := do
  let relative_path ← normalizePath file_path
  let ev1 ← transfer_spot_to_data env.spotToData cfg.spot832_root cfg.data832_root relative_path
  let ev2 ← transfer_data_to_nersc env.dataToNersc cfg.data832_root cfg.nersc832_root relative_path
  let ev3 ← ingest_scicat env.ingestOk relative_path
  let ev4 := Event.scheduleFlow (pstr "prune_spot832/prune_spot832")
    (pstr "delete spot832: " ++ pathName file_path) relative_path
    env.delete_spot832_files_after_days
  let ev5 := Event.scheduleFlow (pstr "prune_data832/prune_data832")
    (pstr "delete data832: " ++ pathName file_path) relative_path
    env.delete_data832_files_after_days
  .ok [ev1, ev2, ev3, ev4, ev5]

/-- Selects the deferred deletion-scheduling events of a trace. -/
def scheduledJobs (trace : List Event) : List Event :=
  trace.filter (fun e => match e with | .scheduleFlow _ _ _ _ => true | _ => false)

/-- Two consecutive path separators, the shape a well-formed join must not
introduce. -/
def doubledSep : List Char := ['/', '/']

lemma marker_ne_nil : marker ≠ [] := by decide

lemma pyIndex_mem {α : Type} : ∀ (l : List α) (i : Nat) (x : α),
    pyIndex l i = .ok x → x ∈ l := by
  intro l
  induction l with
  | nil => intro i x h; simp [pyIndex] at h
  | cons a as ih =>
    intro i x h
    cases i with
    | zero =>
      have : a = x := by simpa [pyIndex] using h
      subst this
      exact List.mem_cons_self a as
    | succ n => exact List.mem_cons_of_mem _ (ih n x h)

lemma splitF_ne_nil (sep : List Char) (fuel : Nat) (l : List Char) :
    splitF sep fuel l ≠ [] := by
  cases fuel with
  | zero => cases l <;> simp [splitF]
  | succ f =>
    cases l with
    | nil => simp [splitF]
    | cons c rest =>
      simp only [splitF]
      split
      · simp
      · split <;> simp

lemma splitF_head_prefix (sep : List Char) :
    ∀ (fuel : Nat) (l piece : List Char),
      (splitF sep fuel l).head? = some piece → piece <+: l := by
  intro fuel
  induction fuel with
  | zero =>
    intro l piece h
    cases l with
    | nil =>
      have : piece = [] := by simpa [splitF] using h.symm
      subst this
      exact ⟨[], rfl⟩
    | cons c rest =>
      have : piece = c :: rest := by simpa [splitF] using h.symm
      subst this
      exact ⟨[], by simp⟩
  | succ f ih =>
    intro l piece h
    cases l with
    | nil =>
      have : piece = [] := by simpa [splitF] using h.symm
      subst this
      exact ⟨[], by simp⟩
    | cons c rest =>
      simp only [splitF] at h
      split at h
      · have : piece = [] := by simpa using h.symm
        subst this
        exact ⟨c :: rest, rfl⟩
      · split at h
        · have : piece = [c] := by simpa using h.symm
          subst this
          exact ⟨rest, rfl⟩
        · rename_i piece0 pieces heq
          have hp : piece = c :: piece0 := by simpa using h.symm
          subst hp
          have h0 : (splitF sep f rest).head? = some piece0 := by rw [heq]; rfl
          obtain ⟨t, ht⟩ := ih rest piece0 h0
          exact ⟨t, by simp [← ht]⟩

lemma splitF_sepFree (sep : List Char) (hsep : sep ≠ []) :
    ∀ (fuel : Nat) (l : List Char), l.length ≤ fuel →
      ∀ piece ∈ splitF sep fuel l, ¬ sep <:+: piece := by
  intro fuel
  induction fuel with
  | zero =>
    intro l hlen piece hmem
    have hl : l = [] := List.length_eq_zero.mp (Nat.le_zero.mp hlen)
    subst hl
    have : piece = [] := by simpa [splitF] using hmem
    subst this
    rw [List.infix_nil]
    exact hsep
  | succ f ih =>
    intro l hlen piece hmem
    cases l with
    | nil =>
      have : piece = [] := by simpa [splitF] using hmem
      subst this
      rw [List.infix_nil]
      exact hsep
    | cons c rest =>
      have hsl : 1 ≤ sep.length := List.length_pos.mpr hsep
      have hrest : rest.length ≤ f := by simp at hlen; omega
      simp only [splitF] at hmem
      split at hmem
      · rcases List.mem_cons.mp hmem with rfl | hmem2
        · rw [List.infix_nil]; exact hsep
        · have hdrop : ((c :: rest).drop sep.length).length ≤ f := by
            rw [List.length_drop]; simp; omega
          exact ih _ hdrop piece hmem2
      · rename_i hcond
        have hpre : ¬ sep <+: (c :: rest) := fun hp =>
          hcond ⟨hsep, List.isPrefixOf_iff_prefix.mpr hp⟩
        split at hmem
        · rename_i heq
          exact absurd heq (splitF_ne_nil sep f rest)
        · rename_i piece0 pieces heq
          rcases List.mem_cons.mp hmem with rfl | hmem2
          · intro hinf
            rcases List.infix_cons_iff.mp hinf with hp | hi
            · have h0 : (splitF sep f rest).head? = some piece0 := by rw [heq]; rfl
              obtain ⟨t, ht⟩ := splitF_head_prefix sep f rest piece0 h0
              exact hpre (hp.trans ⟨t, by simp [← ht]⟩)
            · have : piece0 ∈ splitF sep f rest := by
                rw [heq]; exact List.mem_cons_self _ _
              exact ih rest hrest piece0 this hi
          · have : piece ∈ splitF sep f rest := by
              rw [heq]; exact List.mem_cons_of_mem _ hmem2
            exact ih rest hrest piece this

lemma splitF_no_occ (sep : List Char) :
    ∀ (fuel : Nat) (l : List Char), l.length ≤ fuel → ¬ sep <:+: l →
      splitF sep fuel l = [l] := by
  intro fuel
  induction fuel with
  | zero =>
    intro l hlen h
    have hl : l = [] := List.length_eq_zero.mp (Nat.le_zero.mp hlen)
    subst hl
    simp [splitF]
  | succ f ih =>
    intro l hlen h
    cases l with
    | nil => simp [splitF]
    | cons c rest =>
      simp only [splitF]
      split
      · rename_i hcond
        exact absurd (List.isPrefixOf_iff_prefix.mp hcond.2).isInfix h
      · have hrest : ¬ sep <:+: rest := fun hi => h (List.infix_cons hi)
        rw [ih rest (by simp at hlen; omega) hrest]

lemma joinWith_cons (sep : List Char) (c : Char) (p : List Char)
    (ps : List (List Char)) :
    joinWith sep ((c :: p) :: ps) = c :: joinWith sep (p :: ps) := by
  cases ps with
  | nil => rfl
  | cons q qs => simp [joinWith]

lemma splitF_joinWith (sep : List Char) (hsep : sep ≠ []) :
    ∀ (fuel : Nat) (l : List Char), l.length ≤ fuel →
      joinWith sep (splitF sep fuel l) = l := by
  intro fuel
  induction fuel with
  | zero =>
    intro l hlen
    have hl : l = [] := List.length_eq_zero.mp (Nat.le_zero.mp hlen)
    subst hl
    simp [splitF, joinWith]
  | succ f ih =>
    intro l hlen
    cases l with
    | nil => simp [splitF, joinWith]
    | cons c rest =>
      have hsl : 1 ≤ sep.length := List.length_pos.mpr hsep
      simp only [splitF]
      split
      · rename_i hcond
        obtain ⟨t, ht⟩ := List.isPrefixOf_iff_prefix.mp hcond.2
        have hdrop : ((c :: rest).drop sep.length).length ≤ f := by
          rw [List.length_drop]; simp at hlen ⊢; omega
        obtain ⟨r0, rs, hr⟩ : ∃ r0 rs,
            splitF sep f ((c :: rest).drop sep.length) = r0 :: rs := by
          cases hsp : splitF sep f ((c :: rest).drop sep.length) with
          | nil => exact absurd hsp (splitF_ne_nil sep f _)
          | cons r0 rs => exact ⟨r0, rs, rfl⟩
        rw [hr]
        show [] ++ sep ++ joinWith sep (r0 :: rs) = c :: rest
        have hjoin : joinWith sep (r0 :: rs) = (c :: rest).drop sep.length := by
          rw [← hr]; exact ih _ hdrop
        rw [hjoin]
        have hdt : (c :: rest).drop sep.length = t := by rw [← ht, List.drop_left]
        rw [hdt]
        simpa using ht
      · obtain ⟨r0, rs, hr⟩ : ∃ r0 rs, splitF sep f rest = r0 :: rs := by
          cases hsp : splitF sep f rest with
          | nil => exact absurd hsp (splitF_ne_nil sep f rest)
          | cons r0 rs => exact ⟨r0, rs, rfl⟩
        rw [hr]
        show joinWith sep ((c :: r0) :: rs) = c :: rest
        rw [joinWith_cons]
        have hjoin : joinWith sep (r0 :: rs) = rest := by
          rw [← hr]; exact ih rest (by simp at hlen; omega)
        rw [hjoin]

lemma pySplit_sepFree (s sep : List Char) (hsep : sep ≠ []) :
    ∀ piece ∈ pySplit s sep, ¬ sep <:+: piece :=
  splitF_sepFree sep hsep s.length s (Nat.le_refl _)

lemma pySplit_no_occ (s sep : List Char) (h : ¬ sep <:+: s) : pySplit s sep = [s] :=
  splitF_no_occ sep s.length s (Nat.le_refl _) h

lemma pySplit_joinWith (s sep : List Char) (hsep : sep ≠ []) :
    joinWith sep (pySplit s sep) = s :=
  splitF_joinWith sep hsep s.length s (Nat.le_refl _)

lemma normalize_no_marker (p : List Char) (h : ¬ marker <:+: p) :
    normalizePath p = .error .indexError := by
  unfold normalizePath
  rw [pySplit_no_occ p marker h]
  rfl

lemma strip_ne_slash {fp : List Char} (h1 : fp ≠ []) (h2 : fp.head? ≠ some '/') :
    stripLeadingSlash fp = .ok fp := by
  cases fp with
  | nil => exact absurd rfl h1
  | cons c rest =>
    have hc : c ≠ '/' := fun h => h2 (by rw [h]; rfl)
    simp only [stripLeadingSlash]
    rw [if_neg hc]

lemma strip_ok {fp : List Char} (h : fp ≠ []) : ∃ r, stripLeadingSlash fp = .ok r := by
  cases fp with
  | nil => exact absurd rfl h
  | cons c rest => exact ⟨_, rfl⟩

lemma join_absolute (a b : List Char) (h : b.head? = some '/') : osPathJoin a b = b := by
  unfold osPathJoin
  rw [if_pos h]

lemma join_prefix_of (a b : List Char) (h : b.head? ≠ some '/') :
    a <+: osPathJoin a b := by
  unfold osPathJoin
  rw [if_neg h]
  split
  · rename_i ha
    subst ha
    exact ⟨b, rfl⟩
  · split
    · exact List.prefix_append a b
    · exact List.prefix_append a ('/' :: b)

lemma not_dd_append {b : List Char} (hb : ¬ doubledSep <:+: b) :
    ∀ a : List Char, ¬ doubledSep <:+: a →
      ¬ (a.getLast? = some '/' ∧ b.head? = some '/') →
      ¬ doubledSep <:+: (a ++ b) := by
  intro a
  induction a with
  | nil => intro _ _ h; exact hb (by simpa using h)
  | cons c t ih =>
    intro ha hj h
    rcases List.infix_cons_iff.mp h with hp | hi
    · have hp' : ('/' : Char) :: ['/'] <+: c :: (t ++ b) := hp
      rcases List.cons_prefix_cons.mp hp' with ⟨hc, hp2⟩
      cases t with
      | nil =>
        obtain ⟨u, hu⟩ := hp2
        apply hj
        constructor
        · simp [← hc]
        · have hbu : b = '/' :: u := by simpa using hu.symm
          rw [hbu]; rfl
      | cons x xs =>
        obtain ⟨u, hu⟩ := hp2
        have hx : x = '/' := by simpa using congrArg List.head? hu.symm
        apply ha
        have hpre : doubledSep <+: c :: x :: xs := by
          refine ⟨xs, ?_⟩
          show ['/', '/'] ++ xs = c :: x :: xs
          rw [← hc, hx]
          rfl
        exact hpre.isInfix
    · cases t with
      | nil => exact hb (by simpa using hi)
      | cons x xs =>
        refine ih ?_ ?_ hi
        · intro h2; exact ha (List.infix_cons h2)
        · intro h2
          apply hj
          exact ⟨by rw [List.getLast?_cons_cons]; exact h2.1, h2.2⟩

lemma join_noDouble {a b : List Char} (ha : ¬ doubledSep <:+: a)
    (hb : ¬ doubledSep <:+: b) (hhead : b.head? ≠ some '/') :
    ¬ doubledSep <:+: osPathJoin a b := by
  unfold osPathJoin
  rw [if_neg hhead]
  split
  · exact hb
  · split
    · exact not_dd_append hb a ha (fun hc => hhead hc.2)
    · rename_i h0 hlast
      have hb' : ¬ doubledSep <:+: ('/' :: b) := by
        intro hdb
        rcases List.infix_cons_iff.mp hdb with hp | hi
        · have hp' : ('/' : Char) :: ['/'] <+: '/' :: b := hp
          rcases List.cons_prefix_cons.mp hp' with ⟨_, hp2⟩
          obtain ⟨u, hu⟩ := hp2
          apply hhead
          have hbu : b = '/' :: u := by simpa using hu.symm
          rw [hbu]; rfl
        · exact hb hi
      exact not_dd_append hb' a ha (fun hc => hlast hc.1)

lemma except_bind_ok {α β : Type} (a : α) (f : α → Except PyError β) :
    (Except.ok a : Except PyError α) >>= f = f a := rfl

/-- Claim C1 (code bug, evaluated at the failing input): with both transfer
collaborator outcomes modelled from the spec as returned values, a run on
`/global/raw/sample1/scan0001.h5` in which the facility-to-archive transfer
reports `Failed` still invokes the ingestion call and both
deletion-scheduling calls — the flow never inspects the transfer outcome,
so the pipeline is not halted as the spec requires. -/
theorem C1_failed_transfer_does_not_halt_pipeline :
    process_new_832_file ⟨pstr "/spot", pstr "/data", pstr "/nersc"⟩
        ⟨.succeeded, .failed (pstr "globus error"), true, 14, 30⟩
        (pstr "/global/raw/sample1/scan0001.h5") =
      .ok [.transferSpotToData (pstr "/spot/raw/sample1/scan0001.h5")
          (pstr "/data/raw/sample1/scan0001.h5") .succeeded,
        .transferDataToNersc (pstr "/data/raw/sample1/scan0001.h5")
          (pstr "/nersc/raw/sample1/scan0001.h5") (.failed (pstr "globus error")),
        .ingestScicat (pstr "/data_mover/8.3.2/raw/sample1/scan0001.h5") true,
        .scheduleFlow (pstr "prune_spot832/prune_spot832")
          (pstr "delete spot832: scan0001.h5") (pstr "/raw/sample1/scan0001.h5") 14,
        .scheduleFlow (pstr "prune_data832/prune_data832")
          (pstr "delete data832: scan0001.h5") (pstr "/raw/sample1/scan0001.h5") 30] := by
  decide

/-- Claim C2 (confirmed): in a run in which both transfers succeed, a
failed ingestion submission (the collaborator reports failure, `false`)
does not prevent the two deletion-scheduling calls: both are still
registered, with the spot832 retention duration for the instrument-tier
job and the data832 retention duration for the facility-tier job. -/
theorem C2_ingest_failure_still_schedules_deletions :
    ∀ (cfg : Config832) (fp rel : List Char) (d1 d2 : Nat),
      normalizePath fp = .ok rel → rel ≠ [] →
      ∃ src1 dst1 src2 dst2 ip,
        process_new_832_file cfg ⟨.succeeded, .succeeded, false, d1, d2⟩ fp =
          .ok [.transferSpotToData src1 dst1 .succeeded,
            .transferDataToNersc src2 dst2 .succeeded,
            .ingestScicat ip false,
            .scheduleFlow (pstr "prune_spot832/prune_spot832")
              (pstr "delete spot832: " ++ pathName fp) rel d1,
            .scheduleFlow (pstr "prune_data832/prune_data832")
              (pstr "delete data832: " ++ pathName fp) rel d2] := by
  intro cfg fp rel d1 d2 h1 h2
  obtain ⟨r, hr⟩ := strip_ok h2
  refine ⟨osPathJoin cfg.spot832_root r, osPathJoin cfg.data832_root r,
    osPathJoin cfg.data832_root r, osPathJoin cfg.nersc832_root r,
    osPathJoin (pstr "/data_mover/8.3.2") r, ?_⟩
  simp only [process_new_832_file, transfer_spot_to_data, transfer_data_to_nersc,
    ingest_scicat, h1, hr, except_bind_ok]

/-- Witness for C2 at a concrete run. -/
theorem C2_witness :
    ∃ src1 dst1 src2 dst2 ip,
      process_new_832_file ⟨pstr "/spot", pstr "/data", pstr "/nersc"⟩
          ⟨.succeeded, .succeeded, false, 14, 30⟩ (pstr "/global/raw/x.h5") =
        .ok [.transferSpotToData src1 dst1 .succeeded,
          .transferDataToNersc src2 dst2 .succeeded,
          .ingestScicat ip false,
          .scheduleFlow (pstr "prune_spot832/prune_spot832")
            (pstr "delete spot832: " ++ pathName (pstr "/global/raw/x.h5"))
            (pstr "/raw/x.h5") 14,
          .scheduleFlow (pstr "prune_data832/prune_data832")
            (pstr "delete data832: " ++ pathName (pstr "/global/raw/x.h5"))
            (pstr "/raw/x.h5") 30] :=
  C2_ingest_failure_still_schedules_deletions ⟨pstr "/spot", pstr "/data", pstr "/nersc"⟩
    (pstr "/global/raw/x.h5") (pstr "/raw/x.h5") 14 30 (by decide) (by decide)

/-- Claim C3 (corrected), counterexample: normalization is not idempotent.
Normalizing `/global/raw/sample1/scan0001.h5` yields
`/raw/sample1/scan0001.h5`, and applying the normalization step to that
output does not yield the same string — it raises `IndexError`, because the
output no longer contains the marker. -/
theorem C3_counterexample :
    normalizePath (pstr "/global/raw/sample1/scan0001.h5") =
      .ok (pstr "/raw/sample1/scan0001.h5") ∧
    normalizePath (pstr "/raw/sample1/scan0001.h5") = .error .indexError := by
  decide

/-- Claim C3 (corrected, amended statement): normalization is never
idempotent on accepted input: its output never contains the marker
substring, so a second application always fails with `IndexError` instead
of returning the same string. -/
theorem C3_second_normalization_always_fails :
    ∀ p rel : List Char, normalizePath p = .ok rel →
      normalizePath rel = .error .indexError := by
  intro p rel h
  have hmem : rel ∈ pySplit p marker := pyIndex_mem _ _ _ h
  exact normalize_no_marker rel (pySplit_sepFree p marker marker_ne_nil rel hmem)

/-- Witness for the amended C3 at a concrete accepted path. -/
theorem C3_witness :
    normalizePath (pstr "/global/raw/x.h5") = .ok (pstr "/raw/x.h5") ∧
    normalizePath (pstr "/raw/x.h5") = .error .indexError :=
  ⟨by decide, C3_second_normalization_always_fails (pstr "/global/raw/x.h5")
    (pstr "/raw/x.h5") (by decide)⟩

/-- Claim C4 (corrected), counterexample: on a path without the marker
segment, normalization does fail, but with the generic `IndexError` raised
by indexing the one-element split result, which is not the dedicated
`MalformedPathError` the claim requires. -/
theorem C4_counterexample :
    normalizePath (pstr "/data/raw/x.h5") = .error .indexError ∧
    PyError.indexError ≠ PyError.malformedPathError := by
  decide

/-- Claim C4 (corrected, amended statement): for every input path that
does not contain the marker substring, normalization fails immediately —
but with the host language's generic `IndexError` from `split(...)[1]`,
not with a defined `MalformedPathError`. -/
theorem C4_missing_marker_fails_with_index_error :
    ∀ p : List Char, ¬ marker <:+: p → normalizePath p = .error .indexError :=
  fun p h => normalize_no_marker p h

/-- Witness for the amended C4 at a concrete marker-free path. -/
theorem C4_witness :
    normalizePath (pstr "/beamline/raw/x.h5") = .error .indexError :=
  C4_missing_marker_fails_with_index_error _ (by decide)

/-- Claim C5 (corrected), counterexample: on input
`/global/raw/sample1/scan0001.h5` the produced RelativePath is
`/raw/sample1/scan0001.h5` — the leading separator is retained — not
`raw/sample1/scan0001.h5` as the claim states. -/
theorem C5_counterexample :
    normalizePath (pstr "/global/raw/sample1/scan0001.h5") ≠
      .ok (pstr "raw/sample1/scan0001.h5") ∧
    normalizePath (pstr "/global/raw/sample1/scan0001.h5") =
      .ok (pstr "/raw/sample1/scan0001.h5") := by
  decide

/-- Claim C5 (corrected, amended statement): on input
`/global/raw/sample1/scan0001.h5` the run produces the RelativePath
`/raw/sample1/scan0001.h5` (leading separator retained); each transfer
task strips that separator and joins each endpoint root with
`raw/sample1/scan0001.h5`, and the ingestion job is submitted with path
`/data_mover/8.3.2/raw/sample1/scan0001.h5`, as claimed. -/
theorem C5_scenario_paths :
    ∀ (root1 root2 : List Char) (o : TransferOutcome) (ok : Bool),
      normalizePath (pstr "/global/raw/sample1/scan0001.h5") =
        .ok (pstr "/raw/sample1/scan0001.h5") ∧
      transfer_spot_to_data o root1 root2 (pstr "/raw/sample1/scan0001.h5") =
        .ok (.transferSpotToData (osPathJoin root1 (pstr "raw/sample1/scan0001.h5"))
          (osPathJoin root2 (pstr "raw/sample1/scan0001.h5")) o) ∧
      transfer_data_to_nersc o root1 root2 (pstr "/raw/sample1/scan0001.h5") =
        .ok (.transferDataToNersc (osPathJoin root1 (pstr "raw/sample1/scan0001.h5"))
          (osPathJoin root2 (pstr "raw/sample1/scan0001.h5")) o) ∧
      ingest_scicat ok (pstr "/raw/sample1/scan0001.h5") =
        .ok (.ingestScicat (pstr "/data_mover/8.3.2/raw/sample1/scan0001.h5") ok) := by
  intro root1 root2 o ok
  exact ⟨by decide, rfl, rfl, rfl⟩

/-- Claim C6 (corrected), counterexample: on the zero-length path each
transfer task does crash — `file_path[0]` raises `IndexError` on the empty
string before any join is built. -/
theorem C6_counterexample :
    transfer_spot_to_data .succeeded (pstr "/spot") (pstr "/data") (pstr "") =
      .error .indexError ∧
    transfer_data_to_nersc .succeeded (pstr "/data") (pstr "/nersc") (pstr "") =
      .error .indexError := by
  decide

/-- Claim C6 (corrected, amended statement): for a nonempty
already-relative path (no leading separator) each transfer task produces
the join of each endpoint root with the path and does not raise; the
zero-length path, however, raises `IndexError` in both tasks. -/
theorem C6_relative_join_but_empty_raises :
    ∀ (o : TransferOutcome) (r1 r2 fp : List Char),
      fp ≠ [] → fp.head? ≠ some '/' →
      (transfer_spot_to_data o r1 r2 fp =
          .ok (.transferSpotToData (osPathJoin r1 fp) (osPathJoin r2 fp) o) ∧
        transfer_data_to_nersc o r1 r2 fp =
          .ok (.transferDataToNersc (osPathJoin r1 fp) (osPathJoin r2 fp) o)) ∧
      (transfer_spot_to_data o r1 r2 [] = .error .indexError ∧
        transfer_data_to_nersc o r1 r2 [] = .error .indexError) := by
  intro o r1 r2 fp h1 h2
  have hs := strip_ne_slash h1 h2
  refine ⟨⟨?_, ?_⟩, rfl, rfl⟩
  · simp only [transfer_spot_to_data, hs, except_bind_ok]
  · simp only [transfer_data_to_nersc, hs, except_bind_ok]

/-- Witness for the amended C6 at a concrete relative path. -/
theorem C6_witness :
    (transfer_spot_to_data .succeeded (pstr "/spot") (pstr "/data") (pstr "raw/x.h5") =
        .ok (.transferSpotToData (osPathJoin (pstr "/spot") (pstr "raw/x.h5"))
          (osPathJoin (pstr "/data") (pstr "raw/x.h5")) .succeeded) ∧
      transfer_data_to_nersc .succeeded (pstr "/spot") (pstr "/data") (pstr "raw/x.h5") =
        .ok (.transferDataToNersc (osPathJoin (pstr "/spot") (pstr "raw/x.h5"))
          (osPathJoin (pstr "/data") (pstr "raw/x.h5")) .succeeded)) ∧
    (transfer_spot_to_data .succeeded (pstr "/spot") (pstr "/data") [] =
        .error .indexError ∧
      transfer_data_to_nersc .succeeded (pstr "/spot") (pstr "/data") [] =
        .error .indexError) :=
  C6_relative_join_but_empty_raises .succeeded (pstr "/spot") (pstr "/data")
    (pstr "raw/x.h5") (by decide) (by decide)

/-- Claim C7 (confirmed): for every RelativePath that is nonempty (per the
data model it begins with a top-level segment) and carries no leading
separator, and endpoint roots and path free of pre-existing doubled
separators, both transfer tasks build exactly `join(root, rel)` for source
and destination, the result retains the root as a prefix, and it contains
no doubled separator — the join introduces none at the junction. -/
theorem C7_join_keeps_root_and_no_doubled_separator :
    ∀ (root1 root2 rel : List Char) (o : TransferOutcome),
      rel ≠ [] → rel.head? ≠ some '/' →
      ¬ doubledSep <:+: root1 → ¬ doubledSep <:+: root2 → ¬ doubledSep <:+: rel →
      transfer_spot_to_data o root1 root2 rel =
        .ok (.transferSpotToData (osPathJoin root1 rel) (osPathJoin root2 rel) o) ∧
      transfer_data_to_nersc o root1 root2 rel =
        .ok (.transferDataToNersc (osPathJoin root1 rel) (osPathJoin root2 rel) o) ∧
      root1 <+: osPathJoin root1 rel ∧ root2 <+: osPathJoin root2 rel ∧
      ¬ doubledSep <:+: osPathJoin root1 rel ∧
      ¬ doubledSep <:+: osPathJoin root2 rel := by
  intro root1 root2 rel o h1 h2 hr1 hr2 hrel
  have hs := strip_ne_slash h1 h2
  refine ⟨?_, ?_, join_prefix_of _ _ h2, join_prefix_of _ _ h2,
    join_noDouble hr1 hrel h2, join_noDouble hr2 hrel h2⟩
  · simp only [transfer_spot_to_data, hs, except_bind_ok]
  · simp only [transfer_data_to_nersc, hs, except_bind_ok]

/-- Witness for C7 at concrete roots and relative path. -/
theorem C7_witness :
    transfer_spot_to_data .succeeded (pstr "/spot") (pstr "/data") (pstr "raw/x.h5") =
      .ok (.transferSpotToData (osPathJoin (pstr "/spot") (pstr "raw/x.h5"))
        (osPathJoin (pstr "/data") (pstr "raw/x.h5")) .succeeded) ∧
    transfer_data_to_nersc .succeeded (pstr "/spot") (pstr "/data") (pstr "raw/x.h5") =
      .ok (.transferDataToNersc (osPathJoin (pstr "/spot") (pstr "raw/x.h5"))
        (osPathJoin (pstr "/data") (pstr "raw/x.h5")) .succeeded) ∧
    pstr "/spot" <+: osPathJoin (pstr "/spot") (pstr "raw/x.h5") ∧
    pstr "/data" <+: osPathJoin (pstr "/data") (pstr "raw/x.h5") ∧
    ¬ doubledSep <:+: osPathJoin (pstr "/spot") (pstr "raw/x.h5") ∧
    ¬ doubledSep <:+: osPathJoin (pstr "/data") (pstr "raw/x.h5") :=
  C7_join_keeps_root_and_no_doubled_separator (pstr "/spot") (pstr "/data")
    (pstr "raw/x.h5") .succeeded (by decide) (by decide) (by decide) (by decide)
    (by decide)

/-- Claim C8 (confirmed): every successful pipeline run (both transfers
succeed and the ingestion submission is accepted) registers exactly two
deferred deletion jobs: one on the spot832 (instrument) pruning deployment
firing after the instrument-tier retention setting, and one on the data832
(facility) pruning deployment firing after the facility-tier retention
setting, and both jobs carry the identical RelativePath. -/
theorem C8_exactly_two_deletion_jobs :
    ∀ (cfg : Config832) (fp rel : List Char) (d1 d2 : Nat),
      normalizePath fp = .ok rel → rel ≠ [] →
      ∃ trace,
        process_new_832_file cfg ⟨.succeeded, .succeeded, true, d1, d2⟩ fp =
          .ok trace ∧
        scheduledJobs trace =
          [.scheduleFlow (pstr "prune_spot832/prune_spot832")
              (pstr "delete spot832: " ++ pathName fp) rel d1,
            .scheduleFlow (pstr "prune_data832/prune_data832")
              (pstr "delete data832: " ++ pathName fp) rel d2] := by
  intro cfg fp rel d1 d2 h1 h2
  obtain ⟨r, hr⟩ := strip_ok h2
  refine ⟨[.transferSpotToData (osPathJoin cfg.spot832_root r)
      (osPathJoin cfg.data832_root r) .succeeded,
    .transferDataToNersc (osPathJoin cfg.data832_root r)
      (osPathJoin cfg.nersc832_root r) .succeeded,
    .ingestScicat (osPathJoin (pstr "/data_mover/8.3.2") r) true,
    .scheduleFlow (pstr "prune_spot832/prune_spot832")
      (pstr "delete spot832: " ++ pathName fp) rel d1,
    .scheduleFlow (pstr "prune_data832/prune_data832")
      (pstr "delete data832: " ++ pathName fp) rel d2], ?_, ?_⟩
  · simp only [process_new_832_file, transfer_spot_to_data, transfer_data_to_nersc,
      ingest_scicat, h1, hr, except_bind_ok]
  · rfl

/-- Witness for C8 at a concrete run. -/
theorem C8_witness :
    ∃ trace,
      process_new_832_file ⟨pstr "/spot", pstr "/data", pstr "/nersc"⟩
          ⟨.succeeded, .succeeded, true, 14, 30⟩ (pstr "/global/raw/x.h5") =
        .ok trace ∧
      scheduledJobs trace =
        [.scheduleFlow (pstr "prune_spot832/prune_spot832")
            (pstr "delete spot832: " ++ pathName (pstr "/global/raw/x.h5"))
            (pstr "/raw/x.h5") 14,
          .scheduleFlow (pstr "prune_data832/prune_data832")
            (pstr "delete data832: " ++ pathName (pstr "/global/raw/x.h5"))
            (pstr "/raw/x.h5") 30] :=
  C8_exactly_two_deletion_jobs ⟨pstr "/spot", pstr "/data", pstr "/nersc"⟩
    (pstr "/global/raw/x.h5") (pstr "/raw/x.h5") 14 30 (by decide) (by decide)

/-- Claim C9 (confirmed): when the marker substring occurs more than once
in the input (the split has at least three pieces), normalization keeps
exactly the piece between the first and the second occurrence — the input
decomposes as `a ++ marker ++ b ++ marker ++ tail` with `a` and `b`
marker-free, the result is `b`, and the whole remainder from the second
occurrence on is silently lost. -/
theorem C9_truncates_at_second_marker :
    ∀ p : List Char, 3 ≤ (pySplit p marker).length →
      ∃ a b rest, pySplit p marker = a :: b :: rest ∧ rest ≠ [] ∧
        normalizePath p = .ok b ∧
        p = a ++ marker ++ b ++ marker ++ joinWith marker rest ∧
        ¬ marker <:+: a ∧ ¬ marker <:+: b := by
  intro p h
  cases hs : pySplit p marker with
  | nil => rw [hs] at h; simp at h
  | cons a l1 =>
    cases l1 with
    | nil => rw [hs] at h; simp at h
    | cons b l2 =>
      cases l2 with
      | nil => rw [hs] at h; simp at h
      | cons c0 rest2 =>
        refine ⟨a, b, c0 :: rest2, rfl, by simp, ?_, ?_, ?_, ?_⟩
        · unfold normalizePath; rw [hs]; rfl
        · have hj := pySplit_joinWith p marker marker_ne_nil
          rw [hs] at hj
          rw [← hj]
          simp [joinWith, List.append_assoc]
        · exact pySplit_sepFree p marker marker_ne_nil a
            (by rw [hs]; exact List.mem_cons_self _ _)
        · exact pySplit_sepFree p marker marker_ne_nil b
            (by rw [hs]; exact List.mem_cons_of_mem _ (List.mem_cons_self _ _))

/-- Witness for C9 at the concrete path `/global/raw/global/x.h5`. -/
theorem C9_witness :
    3 ≤ (pySplit (pstr "/global/raw/global/x.h5") marker).length ∧
    ∃ a b rest,
      pySplit (pstr "/global/raw/global/x.h5") marker = a :: b :: rest ∧ rest ≠ [] ∧
      normalizePath (pstr "/global/raw/global/x.h5") = .ok b ∧
      pstr "/global/raw/global/x.h5" =
        a ++ marker ++ b ++ marker ++ joinWith marker rest ∧
      ¬ marker <:+: a ∧ ¬ marker <:+: b :=
  ⟨by decide, C9_truncates_at_second_marker (pstr "/global/raw/global/x.h5") (by decide)⟩

/-- Claim C10 (confirmed): the transfer tasks strip exactly one leading
separator, so a path beginning with two separators is still absolute after
stripping, and `os.path.join` then returns the stripped path itself for
both source and destination — the endpoint roots are discarded entirely
and the transfer is addressed outside the endpoint root. -/
theorem C10_double_slash_escapes_endpoint_root :
    ∀ (o : TransferOutcome) (r1 r2 rest : List Char),
      stripLeadingSlash ('/' :: '/' :: rest) = .ok ('/' :: rest) ∧
      ('/' :: rest).head? = some '/' ∧
      transfer_spot_to_data o r1 r2 ('/' :: '/' :: rest) =
        .ok (.transferSpotToData ('/' :: rest) ('/' :: rest) o) ∧
      transfer_data_to_nersc o r1 r2 ('/' :: '/' :: rest) =
        .ok (.transferDataToNersc ('/' :: rest) ('/' :: rest) o) := by
  intro o r1 r2 rest
  exact ⟨rfl, rfl, rfl, rfl⟩
